import Mathlib

/-!
Verification of the Platter menu scheduler (src/scheduler.rs) against its
natural-language specification.

Modelling conventions:
* Timestamps (`chrono::DateTime<Utc>`) are modelled as `Int`, seconds since
  the Unix epoch (1970-01-01T00:00:00Z).  One day is 86400 seconds.
* `uuid::Uuid` identifiers are modelled as `Nat`.
* The storage gateway (`JsonStorage`, whose implementation is not part of the
  scheduler sources) is modelled from the spec as three in-memory lists with
  per-record update-by-id, see `StorageState` and `updateById`.
* The two `Utc::now()` samples taken inside `execute_schedule` (one when the
  schedule is written as Active, one when the post-execution state is
  evaluated) are passed as explicit parameters `now1` and `now2`.
-/

/-- Recurrence of a schedule (enum `ScheduleRecurrence` from the storage
models, reconstructed from its use in src/scheduler.rs and the spec data
model). -/
inductive ScheduleRecurrence where
  | Daily
  | Weekly
  | Monthly
  | Custom
  deriving DecidableEq, Repr

/-- Lifecycle status of a schedule (enum `ScheduleStatus` from the storage
models, reconstructed from its use in src/scheduler.rs and the spec data
model). -/
inductive ScheduleStatus where
  | Pending
  | Active
  | Ended
  | Conflicted
  deriving DecidableEq, Repr

/-- A menu schedule (struct `MenuSchedule` from the storage models,
reconstructed field-for-field from the literals built in the scheduler's own
tests and the spec data model). -/
structure MenuSchedule where
  id : Nat
  preset_id : Nat
  name : String
  description : String
  start_time : Int
  end_time : Int
  recurrence : ScheduleRecurrence
  status : ScheduleStatus
  error_message : Option String
  created_at : Int
  updated_at : Int
  deriving DecidableEq, Repr

/-- A menu preset (struct `MenuPreset`): a named set of menu item ids.  Only
`id` and `menu_item_ids` are read by the scheduler. -/
structure MenuPreset where
  id : Nat
  name : String
  menu_item_ids : List Nat
  deriving DecidableEq, Repr

/-- A menu item (struct `MenuItem`): only `id` and `is_available` are touched
by the scheduler. -/
structure MenuItem where
  id : Nat
  is_available : Bool
  deriving DecidableEq, Repr

/-- Check if a schedule conflicts with any existing schedules
(src/scheduler.rs, `has_schedule_conflict`): skip any existing schedule with
the candidate's own id, return the first remaining schedule whose closed time
window overlaps the candidate's. -/
def hasScheduleConflict (schedule : MenuSchedule) :
    List MenuSchedule → Option MenuSchedule
  | [] => none
  | existing :: rest =>
    if existing.id = schedule.id then
      hasScheduleConflict schedule rest
    else if schedule.start_time ≤ existing.end_time ∧
        schedule.end_time ≥ existing.start_time then
      some existing
    else
      hasScheduleConflict schedule rest

/-- The overlap condition `has_schedule_conflict` tests for one existing
schedule `B` against the candidate `A` (id inequality plus closed-interval
window overlap). -/
def conflictsWith (A B : MenuSchedule) : Prop :=
  B.id ≠ A.id ∧ A.start_time ≤ B.end_time ∧ A.end_time ≥ B.start_time

instance (A B : MenuSchedule) : Decidable (conflictsWith A B) := by
  unfold conflictsWith
  exact inferInstance

/-- Proleptic-Gregorian leap-year test, as in chrono's calendar. -/
def isLeapYear (y : Int) : Bool :=
  y % 4 = 0 ∧ (y % 100 ≠ 0 ∨ y % 400 = 0)

/-- A civil (proleptic Gregorian) calendar date, the value content of a
`chrono::NaiveDate`. -/
structure CivilDate where
  year : Int
  month : Nat
  day : Nat
  deriving DecidableEq, Repr

/-- Number of days in a month of the proleptic Gregorian calendar. -/
def daysInMonth (y : Int) (m : Nat) : Nat :=
  if m = 2 then (if isLeapYear y then 29 else 28)
  else if m = 4 ∨ m = 6 ∨ m = 9 ∨ m = 11 then 30
  else 31

/-- Civil date from a count of days since 1970-01-01 (the value semantics of
`chrono::NaiveDate`, via the standard days-to-civil conversion). -/
def civilFromDays (z0 : Int) : CivilDate :=
  let z := z0 + 719468
  let era := Int.fdiv z 146097
  let doe := z - era * 146097
  let yoe := Int.fdiv (doe - Int.fdiv doe 1460 + Int.fdiv doe 36524 - Int.fdiv doe 146096) 365
  let y := yoe + era * 400
  let doy := doe - (365 * yoe + Int.fdiv yoe 4 - Int.fdiv yoe 100)
  let mp := Int.fdiv (5 * doy + 2) 153
  let d := doy - Int.fdiv (153 * mp + 2) 5 + 1
  let m := if mp < 10 then mp + 3 else mp - 9
  { year := if m ≤ 2 then y + 1 else y, month := m.toNat, day := d.toNat }

/-- Count of days since 1970-01-01 of a civil date (inverse of
`civilFromDays`, the standard civil-to-days conversion). -/
def daysFromCivil (c : CivilDate) : Int :=
  let y := if c.month ≤ 2 then c.year - 1 else c.year
  let era := Int.fdiv y 400
  let yoe := y - era * 400
  let mp : Int := if c.month > 2 then (c.month : Int) - 3 else (c.month : Int) + 9
  let doy := Int.fdiv (153 * mp + 2) 5 + (c.day : Int) - 1
  let doe := yoe * 365 + Int.fdiv yoe 4 - Int.fdiv yoe 100 + doy
  era * 146097 + doe - 719468

/-- `chrono::NaiveDate::checked_add_months` with `Months::new(n)`: advance the
year/month by `n` months, clamping the day-of-month to the last valid day of
the target month; `none` when the result leaves chrono's representable range
(roughly plus or minus 262000 years — the exact bound is immaterial to every
claim below). -/
def checkedAddMonths (c : CivilDate) (n : Nat) : Option CivilDate :=
  let months : Int := c.year * 12 + ((c.month : Int) - 1) + (n : Int)
  let y := Int.fdiv months 12
  let m : Nat := (months - y * 12).toNat + 1
  if y < -262143 ∨ y > 262142 then none
  else some { year := y, month := m, day := min c.day (daysInMonth y m) }

/-- Calculate the next occurrence of a recurring schedule
(src/scheduler.rs, `calculate_next_occurrence`): Daily adds one day, Weekly
one week, Monthly adds one calendar month to the date component keeping the
time of day, Custom has no next occurrence.  The `_now` parameter is unused,
as in the source. -/
def calculateNextOccurrence (schedule : MenuSchedule) (_now : Int) : Option Int :=
  match schedule.recurrence with
  | ScheduleRecurrence.Daily => some (schedule.start_time + 86400)
  | ScheduleRecurrence.Weekly => some (schedule.start_time + 7 * 86400)
  | ScheduleRecurrence.Monthly =>
      let days := Int.fdiv schedule.start_time 86400
      let timeOfDay := Int.emod schedule.start_time 86400
      (checkedAddMonths (civilFromDays days) 1).map
        fun nextMonth => daysFromCivil nextMonth * 86400 + timeOfDay
  | ScheduleRecurrence.Custom => none

/-- Modelled from the spec: the Storage Gateway owns the durable entity
collections; the scheduler reads and writes them through typed CRUD
(`get_schedules`, `update_schedule(id, ..)`, `get_presets`, `get_items`,
`update_item(id, ..)`).  Its implementation (`JsonStorage`) is not among the
scheduler sources, so its state is modelled as the three collections the
scheduler touches. -/
structure StorageState where
  schedules : List MenuSchedule
  presets : List MenuPreset
  items : List MenuItem
  deriving DecidableEq, Repr

/-- Modelled from the spec: `update_schedule(id, Schedule)` replaces,
atomically per-record, the stored schedule whose id matches; records with
other ids are untouched. -/
def updateById (schedules : List MenuSchedule) (i : Nat) (s : MenuSchedule) :
    List MenuSchedule :=
  schedules.map fun t => if t.id = i then s else t

/-- Look up a stored schedule by id (read-back view used to state what a
transition wrote). -/
def getById (schedules : List MenuSchedule) (i : Nat) : Option MenuSchedule :=
  schedules.find? fun t => t.id = i

/-- The `error_message` the scheduler writes on a conflict
(src/scheduler.rs line 179: `format!("Conflicts with schedule '{}' ({})", name, id)`). -/
def conflictMsg (conflicting : MenuSchedule) : String :=
  "Conflicts with schedule \x27" ++ conflicting.name ++ "\x27 ("
    ++ toString conflicting.id ++ ")"

/-- The error produced when a schedule's preset is missing
(src/scheduler.rs line 208: `format!("Preset with id {} not found for schedule {}", ..)`). -/
def presetNotFoundMsg (schedule : MenuSchedule) : String :=
  "Preset with id " ++ toString schedule.preset_id ++ " not found for schedule "
    ++ toString schedule.id

/-- Post-execution lifecycle advance (src/scheduler.rs lines 226-269): after
the preset effect is applied, re-evaluate the schedule at the fresh clock
sample `now`.  Past `end_time` it is Ended; otherwise a Daily/Weekly/Monthly
schedule is advanced to its next occurrence (back to Pending when that
occurrence is at-or-before `end_time`, else Ended with a message), and a
Custom schedule is Ended immediately. -/
def advanceAfterExecution (schedule : MenuSchedule) (now : Int) : MenuSchedule :=
  if schedule.end_time ≤ now then
    { schedule with status := ScheduleStatus.Ended, updated_at := now,
                    error_message := none }
  else
    match schedule.recurrence with
    | ScheduleRecurrence.Daily | ScheduleRecurrence.Weekly
    | ScheduleRecurrence.Monthly =>
      match calculateNextOccurrence schedule now with
      | some next_start =>
        if next_start ≤ schedule.end_time then
          { schedule with start_time := next_start,
                          status := ScheduleStatus.Pending, updated_at := now,
                          error_message := none }
        else
          { schedule with status := ScheduleStatus.Ended, updated_at := now,
                          error_message := some "Next occurrence is after schedule end time" }
      | none =>
        { schedule with status := ScheduleStatus.Ended, updated_at := now,
                        error_message := some "Cannot calculate next occurrence" }
    | ScheduleRecurrence.Custom =>
      { schedule with status := ScheduleStatus.Ended, updated_at := now,
                      error_message := none }

/-- Execute a pending schedule (src/scheduler.rs, `execute_schedule`).
`now1` is the clock sample taken when the schedule is written as Active
(line 199), `now2` the one taken after the preset effect (line 226).
The steps, in source order: conflict check against all stored schedules
(conflict: write the schedule back as Conflicted, without touching
`updated_at`, and return Ok); write the schedule as Active with `updated_at`
refreshed; look up the preset (missing: return Err, leaving the Active record
in place); overwrite every item's `is_available` with membership of the
preset's item-id set; write back the advanced schedule. -/
def executeSchedule (st : StorageState) (now1 now2 : Int)
    (schedule : MenuSchedule) : StorageState × Except String Unit :=
  match hasScheduleConflict schedule st.schedules with
  | some conflicting =>
    let conflicted := { schedule with
      status := ScheduleStatus.Conflicted,
      error_message := some (conflictMsg conflicting) }
    ({ st with schedules := updateById st.schedules schedule.id conflicted },
     Except.ok ())
  | none =>
    let activated := { schedule with
      status := ScheduleStatus.Active,
      updated_at := now1 }
    let st1 := { st with schedules := updateById st.schedules schedule.id activated }
    match st1.presets.find? fun p => p.id = activated.preset_id with
    | none => (st1, Except.error (presetNotFoundMsg activated))
    | some preset =>
      let st2 := { st1 with items := st1.items.map fun (item : MenuItem) =>
        { item with is_available := preset.menu_item_ids.contains item.id } }
      let advanced := advanceAfterExecution activated now2
      ({ st2 with schedules := updateById st2.schedules advanced.id advanced },
       Except.ok ())

/-- Update an active schedule to ended status (src/scheduler.rs,
`handle_ended_active_schedule`): unconditionally write the schedule back as
Ended with `updated_at` refreshed and `error_message` cleared. -/
def handleEndedActiveSchedule (st : StorageState) (now : Int)
    (schedule : MenuSchedule) : StorageState :=
  let ended := { schedule with
    status := ScheduleStatus.Ended,
    updated_at := now, error_message := none }
  { st with schedules := updateById st.schedules schedule.id ended }

/-- A wrapper for MenuSchedule ordered by execution time
(src/scheduler.rs, `ScheduledEvent`). -/
structure ScheduledEvent where
  schedule : MenuSchedule
  execution_time : Int
  deriving DecidableEq, Repr

/-- The `Ord` implementation of `ScheduledEvent` (src/scheduler.rs lines
31-36): the comparison is reversed, `self.cmp(other) =
other.execution_time.cmp(self.execution_time)`, so that Rust's max-heap
`BinaryHeap` behaves as a min-heap on execution time. -/
def ScheduledEvent.cmp (self other : ScheduledEvent) : Ordering :=
  compare other.execution_time self.execution_time

/-- Pop contract of Rust's `BinaryHeap` (std, external to the repository):
an element can be yielded first exactly when it is in the heap and no other
element is greater in the heap's `Ord`. -/
def heapPopsFirst (heap : List ScheduledEvent) (e : ScheduledEvent) : Prop :=
  e ∈ heap ∧ ∀ x ∈ heap, ScheduledEvent.cmp x e ≠ Ordering.gt

instance (heap : List ScheduledEvent) (e : ScheduledEvent) :
    Decidable (heapPopsFirst heap e) := by
  unfold heapPopsFirst
  exact inferInstance

/-- The event (if any) a single stored schedule contributes to the queue
(src/scheduler.rs, `load_scheduled_events`, lines 128-157): Pending with
`start_time >= now` triggers at `start_time`, Pending already past due
triggers at `now`, Active triggers at `end_time`, every other status
contributes nothing. -/
def scheduleEvent (now : Int) (schedule : MenuSchedule) : Option ScheduledEvent :=
  match schedule.status with
  | ScheduleStatus.Pending =>
    if schedule.start_time ≥ now then
      some { schedule := schedule, execution_time := schedule.start_time }
    else
      some { schedule := schedule, execution_time := now }
  | ScheduleStatus.Active =>
    some { schedule := schedule, execution_time := schedule.end_time }
  | _ => none

/-- Load all pending and active schedules into the priority queue
(src/scheduler.rs, `load_scheduled_events`): the multiset of events pushed
into the heap. -/
def loadScheduledEvents (now : Int) (schedules : List MenuSchedule) :
    List ScheduledEvent :=
  schedules.filterMap (scheduleEvent now)

/-- Dispatch of one due event in the scheduler loop (src/scheduler.rs lines
83-91): an Active schedule goes to `handle_ended_active_schedule`, anything
else to `execute_schedule`. -/
def dispatchDueEvent (st : StorageState) (now1 now2 : Int)
    (event : ScheduledEvent) : StorageState × Except String Unit :=
  match event.schedule.status with
  | ScheduleStatus.Active =>
    (handleEndedActiveSchedule st now1 event.schedule, Except.ok ())
  | _ => executeSchedule st now1 now2 event.schedule

/-- Two concrete schedules with overlapping windows, used to instantiate the
conflict-checker theorems. -/
def schedOne : MenuSchedule :=
  { id := 1, preset_id := 101, name := "One", description := "",
    start_time := 0, end_time := 7200, recurrence := ScheduleRecurrence.Daily,
    status := ScheduleStatus.Pending, error_message := none,
    created_at := 0, updated_at := 42 }

def schedTwo : MenuSchedule :=
  { id := 2, preset_id := 102, name := "Two", description := "",
    start_time := 3600, end_time := 10800,
    recurrence := ScheduleRecurrence.Daily, status := ScheduleStatus.Pending,
    error_message := none, created_at := 0, updated_at := 42 }

/-- The monthly schedule of the source's own test
`test_calculate_next_occurrence_monthly`: `start_time` is
2023-01-15T10:00:00Z, i.e. 1673776800 seconds since the epoch. -/
def monthlySample : MenuSchedule :=
  { id := 7, preset_id := 107, name := "Monthly", description := "",
    start_time := 1673776800, end_time := 1673776800 + 3600,
    recurrence := ScheduleRecurrence.Monthly, status := ScheduleStatus.Pending,
    error_message := none, created_at := 0, updated_at := 42 }

/-- Two concrete events with distinct trigger times. -/
def eventEarly : ScheduledEvent :=
  { schedule := schedOne, execution_time := 3600 }

def eventLate : ScheduledEvent :=
  { schedule := schedTwo, execution_time := 7200 }

/-- The record `execute_schedule` writes on the Pending-to-Conflicted
transition: status Conflicted, message naming the conflicting schedule, and
— notably — `updated_at` untouched. -/
def conflictedVersion (s B : MenuSchedule) : MenuSchedule :=
  { s with
    status := ScheduleStatus.Conflicted,
    error_message := some (conflictMsg B) }

/-- The record written when a schedule is transitioned to Ended with its
error message cleared (`handle_ended_active_schedule`, and the past-end and
Custom arms of `execute_schedule`). -/
def endedVersion (s : MenuSchedule) (now : Int) : MenuSchedule :=
  { s with
    status := ScheduleStatus.Ended, updated_at := now,
    error_message := none }

/-- The record `execute_schedule` writes on the Pending-to-Active
transition, before fetching the preset. -/
def activatedVersion (s : MenuSchedule) (now : Int) : MenuSchedule :=
  { s with status := ScheduleStatus.Active, updated_at := now }

/-- An Active Daily schedule whose window has just closed: its next
occurrence (start_time plus one day, 86400) is well before its overall
end_time of 259200 (three days). -/
def activeDailySchedule : MenuSchedule :=
  { id := 6, preset_id := 106, name := "ActiveDaily", description := "",
    start_time := 0, end_time := 259200,
    recurrence := ScheduleRecurrence.Daily, status := ScheduleStatus.Active,
    error_message := none, created_at := 0, updated_at := 42 }

def activeDailyState : StorageState :=
  { schedules := [activeDailySchedule], presets := [], items := [] }

/-- A Pending Daily schedule used to instantiate the in-execution recurrence
advance. -/
def pendingDailySchedule : MenuSchedule :=
  { id := 5, preset_id := 105, name := "PendingDaily", description := "",
    start_time := 0, end_time := 259200,
    recurrence := ScheduleRecurrence.Daily, status := ScheduleStatus.Pending,
    error_message := none, created_at := 0, updated_at := 42 }

/-- Storage holding the two overlapping Pending schedules `schedOne` (the
earlier) and `schedTwo` (the later), a preset for `schedOne`, and one
unavailable item the preset would enable. -/
def overlapState : StorageState :=
  { schedules := [schedOne, schedTwo],
    presets := [{ id := 101, name := "Lunch", menu_item_ids := [9] }],
    items := [{ id := 9, is_available := false }] }

/-- A Pending schedule whose `preset_id` (103) matches no stored preset. -/
def missingPresetSchedule : MenuSchedule :=
  { id := 3, preset_id := 103, name := "NoPreset", description := "",
    start_time := 0, end_time := 7200, recurrence := ScheduleRecurrence.Daily,
    status := ScheduleStatus.Pending, error_message := none, created_at := 0,
    updated_at := 42 }

def missingPresetState : StorageState :=
  { schedules := [missingPresetSchedule], presets := [],
    items := [{ id := 9, is_available := true }] }

/-- A Pending Custom-recurrence schedule whose end_time (100000) is far in
the future at execution time. -/
def customSchedule : MenuSchedule :=
  { id := 4, preset_id := 104, name := "CustomOnce", description := "",
    start_time := 0, end_time := 100000,
    recurrence := ScheduleRecurrence.Custom, status := ScheduleStatus.Pending,
    error_message := none, created_at := 0, updated_at := 42 }

def customState : StorageState :=
  { schedules := [customSchedule],
    presets := [{ id := 104, name := "Supper", menu_item_ids := [9] }],
    items := [{ id := 9, is_available := false },
              { id := 10, is_available := true }] }

theorem hasScheduleConflict_isSome_iff (A : MenuSchedule) (L : List MenuSchedule) :
    (hasScheduleConflict A L).isSome ↔ ∃ B ∈ L, conflictsWith A B := by
  induction L with
  | nil => simp [hasScheduleConflict]
  | cons D L ih =>
    simp only [hasScheduleConflict]
    by_cases h1 : D.id = A.id
    · rw [if_pos h1, ih]
      constructor
      · rintro ⟨C, hC, hconf⟩
        exact ⟨C, List.mem_cons_of_mem _ hC, hconf⟩
      · rintro ⟨C, hC, hconf⟩
        rcases List.mem_cons.mp hC with hCD | hCL
        · exact absurd h1 (hCD ▸ hconf.1)
        · exact ⟨C, hCL, hconf⟩
    · rw [if_neg h1]
      by_cases h2 : A.start_time ≤ D.end_time ∧ A.end_time ≥ D.start_time
      · rw [if_pos h2]
        simp only [Option.isSome_some, true_iff]
        exact ⟨D, List.mem_cons_self _ _, h1, h2.1, h2.2⟩
      · rw [if_neg h2, ih]
        constructor
        · rintro ⟨C, hC, hconf⟩
          exact ⟨C, List.mem_cons_of_mem _ hC, hconf⟩
        · rintro ⟨C, hC, hconf⟩
          rcases List.mem_cons.mp hC with hCD | hCL
          · exact absurd ⟨hconf.2.1, hconf.2.2⟩ (hCD ▸ h2)
          · exact ⟨C, hCL, hconf⟩

theorem hasScheduleConflict_eq_some (A : MenuSchedule) (L : List MenuSchedule)
    (B : MenuSchedule) (h : hasScheduleConflict A L = some B) :
    conflictsWith A B ∧
      ∃ l1 l2, L = l1 ++ B :: l2 ∧ ∀ C ∈ l1, ¬ conflictsWith A C := by
  induction L with
  | nil => exact absurd h (by simp [hasScheduleConflict])
  | cons D L ih =>
    simp only [hasScheduleConflict] at h
    by_cases h1 : D.id = A.id
    · rw [if_pos h1] at h
      obtain ⟨hconf, l1, l2, rfl, hall⟩ := ih h
      refine ⟨hconf, D :: l1, l2, rfl, ?_⟩
      intro C hC
      rcases List.mem_cons.mp hC with hCD | hCL
      · exact fun hc => (hCD ▸ hc.1) h1
      · exact hall C hCL
    · rw [if_neg h1] at h
      by_cases h2 : A.start_time ≤ D.end_time ∧ A.end_time ≥ D.start_time
      · rw [if_pos h2] at h
        obtain rfl : D = B := Option.some.inj h
        exact ⟨⟨h1, h2.1, h2.2⟩, [], L, rfl, by simp⟩
      · rw [if_neg h2] at h
        obtain ⟨hconf, l1, l2, rfl, hall⟩ := ih h
        refine ⟨hconf, D :: l1, l2, rfl, ?_⟩
        intro C hC
        rcases List.mem_cons.mp hC with hCD | hCL
        · exact fun hc => h2 (hCD ▸ ⟨hc.2.1, hc.2.2⟩)
        · exact hall C hCL

theorem hasScheduleConflict_self (A : MenuSchedule) :
    hasScheduleConflict A [A] = none := by
  simp [hasScheduleConflict]

theorem hasScheduleConflict_map_status (A : MenuSchedule) (σ : ScheduleStatus) :
    ∀ L : List MenuSchedule,
      hasScheduleConflict A (L.map fun t => { t with status := σ }) =
        (hasScheduleConflict A L).map fun t => { t with status := σ }
  | [] => rfl
  | D :: L => by
    simp only [List.map_cons, hasScheduleConflict]
    by_cases h1 : D.id = A.id
    · rw [if_pos h1, if_pos h1, hasScheduleConflict_map_status A σ L]
    · rw [if_neg h1, if_neg h1]
      by_cases h2 : A.start_time ≤ D.end_time ∧ A.end_time ≥ D.start_time
      · rw [if_pos h2, if_pos h2]
        rfl
      · rw [if_neg h2, if_neg h2, hasScheduleConflict_map_status A σ L]

/-- Claim C5: the conflict check returns Some exactly when the list holds a
schedule with a different id whose closed time window overlaps the
candidate's (boundary touches included); a schedule never conflicts with
itself alone; and the returned schedule is the first match in iteration
order. -/
theorem spec_C5 :
    (∀ A L, (hasScheduleConflict A L).isSome ↔ ∃ B ∈ L, conflictsWith A B) ∧
    (∀ A, hasScheduleConflict A [A] = none) ∧
    (∀ A L B, hasScheduleConflict A L = some B →
      conflictsWith A B ∧
        ∃ l1 l2, L = l1 ++ B :: l2 ∧ ∀ C ∈ l1, ¬ conflictsWith A C) :=
  ⟨hasScheduleConflict_isSome_iff, hasScheduleConflict_self,
   hasScheduleConflict_eq_some⟩

/-- Claim C5 witness: the conflict-check characterisation evaluated on two
concrete schedules. -/
theorem spec_C5_witness :
    (hasScheduleConflict schedOne [schedOne] = none) ∧
    ((hasScheduleConflict schedOne [schedTwo]).isSome ↔
      ∃ B ∈ [schedTwo], conflictsWith schedOne B) ∧
    (conflictsWith schedOne schedTwo ∧
      ∃ l1 l2, [schedTwo] = l1 ++ schedTwo :: l2 ∧
        ∀ C ∈ l1, ¬ conflictsWith schedOne C) :=
  ⟨spec_C5.2.1 schedOne, spec_C5.1 schedOne [schedTwo],
   spec_C5.2.2 schedOne [schedTwo] schedTwo (by decide)⟩

/-- Claim C10: the conflict check never inspects lifecycle status — mapping
any status over the existing schedules commutes with the check, and in
particular an overlapping schedule with a different id is reported as a
conflict whatever its status (Active, Ended or Conflicted included). -/
theorem spec_C10 :
    (∀ (A : MenuSchedule) (σ : ScheduleStatus) (L : List MenuSchedule),
      hasScheduleConflict A (L.map fun t => { t with status := σ }) =
        (hasScheduleConflict A L).map fun t => { t with status := σ }) ∧
    (∀ (A B : MenuSchedule) (σ : ScheduleStatus),
      B.id ≠ A.id → A.start_time ≤ B.end_time →
      A.end_time ≥ B.start_time →
      hasScheduleConflict A [{ B with status := σ }] =
        some { B with status := σ }) := by
  refine ⟨fun A σ L => hasScheduleConflict_map_status A σ L, fun A B σ h1 h2 h3 => ?_⟩
  simp only [hasScheduleConflict]
  rw [if_neg (by simpa using h1), if_pos (by exact ⟨h2, h3⟩)]

/-- Claim C10 witness: a terminated (Ended) schedule with an overlapping
window is still reported as a conflict. -/
theorem spec_C10_witness :
    hasScheduleConflict schedOne [{ schedTwo with status := ScheduleStatus.Ended }] =
      some { schedTwo with status := ScheduleStatus.Ended } :=
  spec_C10.2 schedOne schedTwo ScheduleStatus.Ended (by decide) (by decide)
    (by decide)

theorem calculateNextOccurrence_timeOfDay (s : MenuSchedule) (now t : Int)
    (hr : s.recurrence = ScheduleRecurrence.Monthly)
    (h : calculateNextOccurrence s now = some t) :
    t % 86400 = s.start_time % 86400 := by
  unfold calculateNextOccurrence at h
  rw [hr] at h
  dsimp only at h
  cases hm : checkedAddMonths (civilFromDays (Int.fdiv s.start_time 86400)) 1 with
  | none => rw [hm] at h; cases h
  | some c =>
    rw [hm] at h
    simp only [Option.map_some', Option.some.injEq] at h
    have ht : t = daysFromCivil c * 86400 + s.start_time % 86400 := h.symm
    omega

/-- Claim C6: the next occurrence is `start_time` plus one day for Daily and
plus seven days for Weekly, always none for Custom, never depends on the
`now` argument, and for Monthly advances the date one calendar month
preserving the time of day — from 2023-01-15T10:00:00Z it yields
2023-02-15T10:00:00Z (1676455200). -/
theorem spec_C6 :
    (∀ (s : MenuSchedule) (now : Int),
      s.recurrence = ScheduleRecurrence.Daily →
      calculateNextOccurrence s now = some (s.start_time + 86400)) ∧
    (∀ (s : MenuSchedule) (now : Int),
      s.recurrence = ScheduleRecurrence.Weekly →
      calculateNextOccurrence s now = some (s.start_time + 7 * 86400)) ∧
    (∀ (s : MenuSchedule) (now : Int),
      s.recurrence = ScheduleRecurrence.Custom →
      calculateNextOccurrence s now = none) ∧
    (∀ (s : MenuSchedule) (n n' : Int),
      calculateNextOccurrence s n = calculateNextOccurrence s n') ∧
    (∀ (s : MenuSchedule) (now t : Int),
      s.recurrence = ScheduleRecurrence.Monthly →
      calculateNextOccurrence s now = some t →
      t % 86400 = s.start_time % 86400) ∧
    (calculateNextOccurrence monthlySample 0 = some 1676455200) := by
  refine ⟨?_, ?_, ?_, fun s n n' => rfl, calculateNextOccurrence_timeOfDay,
    by decide⟩
  · intro s now hr
    unfold calculateNextOccurrence
    rw [hr]
  · intro s now hr
    unfold calculateNextOccurrence
    rw [hr]
  · intro s now hr
    unfold calculateNextOccurrence
    rw [hr]

/-- Claim C6 witness: the characterisation evaluated on the source's monthly
test schedule and on a Daily variant of it. -/
theorem spec_C6_witness :
    calculateNextOccurrence { monthlySample with
        recurrence := ScheduleRecurrence.Daily } 0 =
      some (1673776800 + 86400) ∧
    calculateNextOccurrence monthlySample 123456 =
      calculateNextOccurrence monthlySample 0 :=
  ⟨spec_C6.1 _ 0 rfl, spec_C6.2.2.2.1 monthlySample 123456 0⟩

theorem scheduleEvent_schedule_eq (now : Int) (a : MenuSchedule)
    (e : ScheduledEvent) (h : scheduleEvent now a = some e) : e.schedule = a := by
  unfold scheduleEvent at h
  cases hs : a.status <;> rw [hs] at h
  · by_cases hn : a.start_time ≥ now
    · rw [if_pos hn] at h
      exact congrArg ScheduledEvent.schedule (Option.some.inj h).symm
    · rw [if_neg hn] at h
      exact congrArg ScheduledEvent.schedule (Option.some.inj h).symm
  · exact congrArg ScheduledEvent.schedule (Option.some.inj h).symm
  · cases h
  · cases h

/-- Claim C7: the queue builder gives a future Pending schedule its
`start_time` as trigger, an overdue Pending schedule the current time (so it
is immediately due, not skipped), an Active schedule its `end_time`, and
schedules in any other status no event at all; every event in the built
queue arises this way from a stored schedule. -/
theorem spec_C7 :
    (∀ (now : Int) (s : MenuSchedule), s.status = ScheduleStatus.Pending →
      s.start_time ≥ now →
      scheduleEvent now s = some { schedule := s, execution_time := s.start_time }) ∧
    (∀ (now : Int) (s : MenuSchedule), s.status = ScheduleStatus.Pending →
      s.start_time < now →
      scheduleEvent now s = some { schedule := s, execution_time := now }) ∧
    (∀ (now : Int) (s : MenuSchedule), s.status = ScheduleStatus.Active →
      scheduleEvent now s = some { schedule := s, execution_time := s.end_time }) ∧
    (∀ (now : Int) (s : MenuSchedule),
      s.status = ScheduleStatus.Ended ∨ s.status = ScheduleStatus.Conflicted →
      scheduleEvent now s = none) ∧
    (∀ (now : Int) (l : List MenuSchedule) (e : ScheduledEvent),
      e ∈ loadScheduledEvents now l →
      e.schedule ∈ l ∧ scheduleEvent now e.schedule = some e) := by
  refine ⟨?_, ?_, ?_, ?_, ?_⟩
  · intro now s hs h
    unfold scheduleEvent
    rw [hs]
    exact if_pos h
  · intro now s hs h
    unfold scheduleEvent
    rw [hs]
    exact if_neg (not_le.mpr h)
  · intro now s hs
    unfold scheduleEvent
    rw [hs]
  · intro now s hs
    unfold scheduleEvent
    rcases hs with hs | hs <;> rw [hs]
  · intro now l e he
    obtain ⟨a, hal, ha⟩ := List.mem_filterMap.mp he
    have hae := scheduleEvent_schedule_eq now a e ha
    exact ⟨hae ▸ hal, hae ▸ ha⟩

/-- Claim C7 witness: the event assignment evaluated on concrete Pending,
Active and Conflicted schedules at time 5000. -/
theorem spec_C7_witness :
    scheduleEvent 5000 { schedOne with start_time := 9000 } =
      some { schedule := { schedOne with start_time := 9000 },
             execution_time := 9000 } ∧
    scheduleEvent 5000 schedOne =
      some { schedule := schedOne, execution_time := 5000 } ∧
    scheduleEvent 5000 { schedOne with status := ScheduleStatus.Active } =
      some { schedule := { schedOne with status := ScheduleStatus.Active },
             execution_time := schedOne.end_time } ∧
    scheduleEvent 5000 { schedOne with status := ScheduleStatus.Conflicted } =
      none :=
  ⟨spec_C7.1 5000 _ rfl (by decide),
   spec_C7.2.1 5000 schedOne rfl (by decide),
   spec_C7.2.2.1 5000 _ rfl,
   spec_C7.2.2.2.1 5000 _ (Or.inr rfl)⟩

/-- Claim C9: any event Rust's max-heap can yield first under the reversed
`ScheduledEvent` ordering is one of minimal trigger time — so the queue
yields events in ascending trigger order whatever the insertion order, and
with trigger times T1 < T2 both present the T1 event is popped first. -/
theorem spec_C9 (heap : List ScheduledEvent) (e : ScheduledEvent)
    (h : heapPopsFirst heap e) :
    e ∈ heap ∧ ∀ x ∈ heap, e.execution_time ≤ x.execution_time := by
  refine ⟨h.1, fun x hx => ?_⟩
  have hc := h.2 x hx
  unfold ScheduledEvent.cmp at hc
  exact not_lt.mp fun hlt => hc (compare_gt_iff_gt.mpr hlt)

/-- Claim C9 witness: in the heap holding the late event before the early
one, only the early event is maximal in the reversed ordering, and it has
the minimal trigger time. -/
theorem spec_C9_witness :
    eventEarly ∈ [eventLate, eventEarly] ∧
    ∀ x ∈ [eventLate, eventEarly],
      eventEarly.execution_time ≤ x.execution_time :=
  spec_C9 [eventLate, eventEarly] eventEarly (by decide)

theorem dispatchDueEvent_not_active (st : StorageState) (now1 now2 : Int)
    (e : ScheduledEvent) (h : e.schedule.status ≠ ScheduleStatus.Active) :
    dispatchDueEvent st now1 now2 e = executeSchedule st now1 now2 e.schedule := by
  unfold dispatchDueEvent
  cases hs : e.schedule.status <;> first | rfl | exact absurd hs h

theorem dispatchDueEvent_active (st : StorageState) (now1 now2 : Int)
    (e : ScheduledEvent) (h : e.schedule.status = ScheduleStatus.Active) :
    dispatchDueEvent st now1 now2 e =
      ({ st with schedules :=
          updateById st.schedules e.schedule.id (endedVersion e.schedule now1) },
       Except.ok ()) := by
  unfold dispatchDueEvent
  rw [h]
  rfl

theorem executeSchedule_conflicted (st : StorageState) (now1 now2 : Int)
    (s B : MenuSchedule) (h : hasScheduleConflict s st.schedules = some B) :
    executeSchedule st now1 now2 s =
      ({ st with schedules :=
          updateById st.schedules s.id (conflictedVersion s B) },
       Except.ok ()) := by
  unfold executeSchedule
  rw [h]
  rfl

theorem executeSchedule_missing_preset (st : StorageState) (now1 now2 : Int)
    (s : MenuSchedule)
    (hnoconf : hasScheduleConflict s st.schedules = none)
    (hnopreset : st.presets.find? (fun p => p.id = s.preset_id) = none) :
    executeSchedule st now1 now2 s =
      ({ st with schedules :=
          updateById st.schedules s.id (activatedVersion s now1) },
       Except.error (presetNotFoundMsg s)) := by
  unfold executeSchedule
  rw [hnoconf]
  dsimp only
  rw [hnopreset]
  rfl


/-- Claim C1 counterexample: the Active Daily schedule `activeDailySchedule`
is due at its end_time 259200; its next occurrence 86400 exists and is
at-or-before end_time, so the claim requires the Active-end handling to set
start_time := 86400 and status back to Pending — but the loop's Active-end
handling writes the schedule back as Ended with start_time unchanged. -/
theorem spec_C1_counterexample :
    calculateNextOccurrence activeDailySchedule 259200 = some 86400 ∧
    (86400 : Int) ≤ activeDailySchedule.end_time ∧
    (dispatchDueEvent activeDailyState 259200 259200
        { schedule := activeDailySchedule,
          execution_time := activeDailySchedule.end_time }).1.schedules =
      [endedVersion activeDailySchedule 259200] ∧
    (endedVersion activeDailySchedule 259200).status = ScheduleStatus.Ended ∧
    ScheduleStatus.Ended ≠ ScheduleStatus.Pending ∧
    (endedVersion activeDailySchedule 259200).start_time = 0 := by
  decide

/-- Claim C1 (amended): when an Active schedule's end_time trigger becomes
due, the loop's Active-end handling writes it back as Ended with
error_message cleared, regardless of recurrence; the recurrence advance the
claim describes is performed instead by execute_schedule immediately after a
Pending schedule executes, while end_time is still in the future: the next
occurrence is computed there and, if at-or-before end_time, start_time is
set to it with status reverted to Pending; if it falls after end_time, or
cannot be computed, the schedule is Ended with an explanatory
error_message. -/
theorem spec_C1 :
    (∀ (st : StorageState) (now1 now2 : Int) (e : ScheduledEvent),
      e.schedule.status = ScheduleStatus.Active →
      dispatchDueEvent st now1 now2 e =
        ({ st with schedules :=
            updateById st.schedules e.schedule.id (endedVersion e.schedule now1) },
         Except.ok ())) ∧
    (∀ (s : MenuSchedule) (now next : Int),
      now < s.end_time →
      (s.recurrence = ScheduleRecurrence.Daily ∨
        s.recurrence = ScheduleRecurrence.Weekly ∨
        s.recurrence = ScheduleRecurrence.Monthly) →
      calculateNextOccurrence s now = some next →
      advanceAfterExecution s now =
        if next ≤ s.end_time then
          { s with
            start_time := next, status := ScheduleStatus.Pending,
            updated_at := now, error_message := none }
        else
          { s with
            status := ScheduleStatus.Ended, updated_at := now,
            error_message := some "Next occurrence is after schedule end time" }) ∧
    (∀ (s : MenuSchedule) (now : Int),
      now < s.end_time →
      (s.recurrence = ScheduleRecurrence.Daily ∨
        s.recurrence = ScheduleRecurrence.Weekly ∨
        s.recurrence = ScheduleRecurrence.Monthly) →
      calculateNextOccurrence s now = none →
      advanceAfterExecution s now =
        { s with
          status := ScheduleStatus.Ended, updated_at := now,
          error_message := some "Cannot calculate next occurrence" }) := by
  refine ⟨dispatchDueEvent_active, ?_, ?_⟩
  · intro s now next hnow hrec hnext
    unfold advanceAfterExecution
    rw [if_neg (not_le.mpr hnow)]
    rcases hrec with hr | hr | hr <;> rw [hr, hnext]
  · intro s now hnow hrec hnext
    unfold advanceAfterExecution
    rw [if_neg (not_le.mpr hnow)]
    rcases hrec with hr | hr | hr <;> rw [hr, hnext]

/-- Claim C1 witness: the amended behaviour evaluated on the concrete Active
Daily schedule (handler: straight to Ended) and on the Pending Daily
schedule during execution (advance to Pending at start_time 86400). -/
theorem spec_C1_witness :
    (dispatchDueEvent activeDailyState 259200 259200
        { schedule := activeDailySchedule,
          execution_time := activeDailySchedule.end_time } =
      ({ activeDailyState with schedules := (updateById
          activeDailyState.schedules activeDailySchedule.id
          (endedVersion activeDailySchedule 259200)) }, Except.ok ())) ∧
    (advanceAfterExecution pendingDailySchedule 600 =
      if (86400 : Int) ≤ pendingDailySchedule.end_time then
        { pendingDailySchedule with
          start_time := 86400, status := ScheduleStatus.Pending,
          updated_at := 600, error_message := none }
      else
        { pendingDailySchedule with
          status := ScheduleStatus.Ended, updated_at := 600,
          error_message := some "Next occurrence is after schedule end time" }) :=
  ⟨spec_C1.1 activeDailyState 259200 259200 _ rfl,
   spec_C1.2.1 pendingDailySchedule 600 86400 (by decide) (Or.inl rfl)
     (by decide)⟩

/-- Claim C2 counterexample: with the two overlapping Pending schedules of
`overlapState`, executing the earlier (`schedOne`) first does NOT make it
Active with its preset applied — the conflict check sees the later schedule
in storage, so the earlier one itself is written as Conflicted (naming
`schedTwo`) and the item its preset would have enabled stays unavailable. -/
theorem spec_C2_counterexample :
    getById (dispatchDueEvent overlapState 0 0
        { schedule := schedOne, execution_time := 0 }).1.schedules 1 =
      some (conflictedVersion schedOne schedTwo) ∧
    (conflictedVersion schedOne schedTwo).status = ScheduleStatus.Conflicted ∧
    ScheduleStatus.Conflicted ≠ ScheduleStatus.Active ∧
    (dispatchDueEvent overlapState 0 0
        { schedule := schedOne, execution_time := 0 }).1.items =
      [{ id := 9, is_available := false }] := by
  decide

/-- Claim C2 (amended): for two Pending schedules with distinct ids and
overlapping windows, executing the earlier one first marks the earlier one
itself Conflicted (its preset effect not applied) with error_message naming
the later schedule by id — the conflict check consults every other stored
schedule regardless of status or order — and the later schedule, when its
turn comes, is likewise marked Conflicted with error_message naming the
earlier schedule by id. -/
theorem spec_C2 (st : StorageState) (A B : MenuSchedule)
    (now1 now2 now3 now4 : Int)
    (hsched : st.schedules = [A, B])
    (hid : A.id ≠ B.id)
    (hstA : A.status = ScheduleStatus.Pending)
    (hstB : B.status = ScheduleStatus.Pending)
    (hearlier : A.start_time ≤ B.start_time)
    (h1 : A.start_time ≤ B.end_time)
    (h2 : A.end_time ≥ B.start_time) :
    dispatchDueEvent st now1 now2
        { schedule := A, execution_time := A.start_time } =
      ({ st with schedules := [conflictedVersion A B, B] }, Except.ok ()) ∧
    dispatchDueEvent { st with schedules := [conflictedVersion A B, B] }
        now3 now4 { schedule := B, execution_time := B.start_time } =
      ({ st with schedules :=
          [conflictedVersion A B, conflictedVersion B A] }, Except.ok ()) := by
  have hBA : ¬ B.id = A.id := fun h => hid h.symm
  have hconfA : hasScheduleConflict A [A, B] = some B := by
    simp [hasScheduleConflict, hBA, h1, h2]
  have hAstatus : ({ schedule := A, execution_time := A.start_time } :
      ScheduledEvent).schedule.status ≠ ScheduleStatus.Active := by
    show A.status ≠ ScheduleStatus.Active
    rw [hstA]
    exact fun hc => ScheduleStatus.noConfusion hc
  have hBstatus : ({ schedule := B, execution_time := B.start_time } :
      ScheduledEvent).schedule.status ≠ ScheduleStatus.Active := by
    show B.status ≠ ScheduleStatus.Active
    rw [hstB]
    exact fun hc => ScheduleStatus.noConfusion hc
  constructor
  · rw [dispatchDueEvent_not_active st now1 now2 _ hAstatus]
    rw [executeSchedule_conflicted st now1 now2 A B (by rw [hsched]; exact hconfA)]
    rw [hsched]
    simp [updateById, hBA]
  · rw [dispatchDueEvent_not_active _ now3 now4 _ hBstatus]
    have hconfB : hasScheduleConflict B [conflictedVersion A B, B] =
        some (conflictedVersion A B) := by
      simp [hasScheduleConflict, conflictedVersion, hid, h1, h2]
    rw [executeSchedule_conflicted _ now3 now4 B (conflictedVersion A B)
      (by exact hconfB)]
    simp [updateById, conflictedVersion, conflictMsg, hid]

/-- Claim C2 witness: the amended behaviour evaluated on the two concrete
overlapping Pending schedules in `overlapState`. -/
theorem spec_C2_witness :
    dispatchDueEvent overlapState 0 0
        { schedule := schedOne, execution_time := schedOne.start_time } =
      ({ overlapState with
          schedules := [conflictedVersion schedOne schedTwo, schedTwo] },
       Except.ok ()) ∧
    dispatchDueEvent { overlapState with
        schedules := [conflictedVersion schedOne schedTwo, schedTwo] } 0 0
        { schedule := schedTwo, execution_time := schedTwo.start_time } =
      ({ overlapState with schedules :=
          [conflictedVersion schedOne schedTwo,
           conflictedVersion schedTwo schedOne] }, Except.ok ()) :=
  spec_C2 overlapState schedOne schedTwo 0 0 0 0 rfl (by decide) rfl rfl
    (by decide) (by decide) (by decide)

/-- Claim C3 counterexample: executing `missingPresetSchedule` (whose
preset 103 is absent) at clock time 500 fails with the descriptive error,
changes no item availability and lets the loop continue — but the stored
record is NOT left unmodified: it has been written as Active with
`updated_at` refreshed to 500, so it does not remain Pending. -/
theorem spec_C3_counterexample :
    (executeSchedule missingPresetState 500 600 missingPresetSchedule).2 =
      Except.error "Preset with id 103 not found for schedule 3" ∧
    getById (executeSchedule missingPresetState 500 600
        missingPresetSchedule).1.schedules 3 =
      some (activatedVersion missingPresetSchedule 500) ∧
    (activatedVersion missingPresetSchedule 500).status ≠
      ScheduleStatus.Pending ∧
    activatedVersion missingPresetSchedule 500 ≠ missingPresetSchedule ∧
    (executeSchedule missingPresetState 500 600
        missingPresetSchedule).1.items = missingPresetState.items :=
  ⟨by rfl, by decide, by decide, by decide, by decide⟩

/-- Claim C3 (amended): for every due Pending schedule whose preset_id
matches no stored preset, execution fails with a descriptive error naming
the preset and schedule ids, no item availability is changed, and the loop
continues past the logged error — but the schedule's stored record is not
left unmodified: before the preset lookup it was already rewritten with
status Active and a refreshed updated_at, and it remains so in storage. -/
theorem spec_C3 (st : StorageState) (s : MenuSchedule) (now1 now2 : Int)
    (hnoconf : hasScheduleConflict s st.schedules = none)
    (hnopreset : st.presets.find? (fun p => p.id = s.preset_id) = none) :
    executeSchedule st now1 now2 s =
      ({ st with schedules :=
          updateById st.schedules s.id (activatedVersion s now1) },
       Except.error (presetNotFoundMsg s)) ∧
    (activatedVersion s now1).status = ScheduleStatus.Active :=
  ⟨executeSchedule_missing_preset st now1 now2 s hnoconf hnopreset, rfl⟩

/-- Claim C3 witness: the amended behaviour evaluated on the concrete state
with the missing preset. -/
theorem spec_C3_witness :
    executeSchedule missingPresetState 500 600 missingPresetSchedule =
      ({ missingPresetState with schedules := (updateById
          missingPresetState.schedules missingPresetSchedule.id
          (activatedVersion missingPresetSchedule 500)) },
       Except.error (presetNotFoundMsg missingPresetSchedule)) ∧
    (activatedVersion missingPresetSchedule 500).status =
      ScheduleStatus.Active :=
  spec_C3 missingPresetState missingPresetSchedule 500 600 (by decide) rfl

/-- Claim C4 counterexample: the Custom schedule `customSchedule` executed
at clock times 500/600 — its end_time 100000 is still far in the future —
does not stay Active: execute_schedule writes it straight to Ended. -/
theorem spec_C4_counterexample :
    (600 : Int) < customSchedule.end_time ∧
    customSchedule.recurrence = ScheduleRecurrence.Custom ∧
    (executeSchedule customState 500 600 customSchedule).1.schedules =
      [endedVersion (activatedVersion customSchedule 500) 600] ∧
    (endedVersion (activatedVersion customSchedule 500) 600).status =
      ScheduleStatus.Ended ∧
    ScheduleStatus.Ended ≠ ScheduleStatus.Active := by
  decide

/-- Claim C4 (amended): a schedule stored in Active status leaves Active
only through its end_time trigger, which transitions it to Ended with
error_message cleared; but a Custom (non-recurring) schedule whose end_time
is still in the future after execution does not stay Active — the
post-execution advance marks it Ended (error_message cleared) immediately,
in the same execution pass. -/
theorem spec_C4 :
    (∀ (s : MenuSchedule) (now : Int), now < s.end_time →
      s.recurrence = ScheduleRecurrence.Custom →
      advanceAfterExecution s now = endedVersion s now) ∧
    (∀ (now : Int) (s : MenuSchedule), s.status = ScheduleStatus.Active →
      scheduleEvent now s =
        some { schedule := s, execution_time := s.end_time }) ∧
    (∀ (st : StorageState) (now1 now2 : Int) (e : ScheduledEvent),
      e.schedule.status = ScheduleStatus.Active →
      dispatchDueEvent st now1 now2 e =
        ({ st with schedules :=
            updateById st.schedules e.schedule.id (endedVersion e.schedule now1) },
         Except.ok ())) := by
  refine ⟨?_, ?_, dispatchDueEvent_active⟩
  · intro s now hnow hr
    unfold advanceAfterExecution endedVersion
    rw [if_neg (not_le.mpr hnow), hr]
  · intro now s hs
    unfold scheduleEvent
    rw [hs]

/-- Claim C4 witness: the amended behaviour evaluated on the concrete Custom
schedule (immediate Ended despite a future end_time) and on a concrete
Active schedule (end_time trigger, then Ended). -/
theorem spec_C4_witness :
    advanceAfterExecution (activatedVersion customSchedule 500) 600 =
      endedVersion (activatedVersion customSchedule 500) 600 ∧
    scheduleEvent 600 activeDailySchedule =
      some { schedule := activeDailySchedule,
             execution_time := activeDailySchedule.end_time } :=
  ⟨spec_C4.1 (activatedVersion customSchedule 500) 600 (by decide) rfl,
   spec_C4.2.1 600 activeDailySchedule rfl⟩

/-- Claim C8 (code bug): the Pending-to-Conflicted transition is the one
lifecycle write that does not refresh `updated_at`: executing `schedOne`
(stored with updated_at 42) at clock time 777 against the overlapping
`schedTwo` writes the Conflicted record still carrying updated_at 42. -/
theorem spec_C8 :
    getById (executeSchedule overlapState 777 888 schedOne).1.schedules 1 =
      some (conflictedVersion schedOne schedTwo) ∧
    (conflictedVersion schedOne schedTwo).status = ScheduleStatus.Conflicted ∧
    schedOne.status = ScheduleStatus.Pending ∧
    (conflictedVersion schedOne schedTwo).updated_at = 42 ∧
    (42 : Int) ≠ 777 := by
  decide
